import Mathlib

/-
  Verification development for the BCM2711 Mini UART driver (rpi2).

  Shallow embedding of the driver core (src/unnamed/part_000, src/rpi2.h):
  - machine integers are modelled as Nat; the u32 arithmetic in
    calculate_baud_register never wraps under its own guards (see comments),
    and the u64 statistics counters are modelled as Nat (each call increments
    a counter by at most the 512-byte buffer bound; 64-bit wraparound is not
    modelled);
  - memory-mapped registers are modelled as a record of last-written values;
  - the hardware line-status polling in the transmit path is modelled by an
    oracle `lsr : Nat -> Bool` giving, for each successive poll-bounded wait,
    whether transmit space appeared within the 10 ms bound;
  - the receive hardware is modelled as a static list of pending bytes:
    uart_data_available holds iff the list is nonempty, and reading consumes
    the head byte (no overrun bit is ever set by this device model, and
    user-copy faults are not modelled);
  - the bounded receive drain loop of uart_proc_read is written with a
    structural fuel argument so that it is computable by kernel reduction;
    the wrapper passes fuel (dev.length + 1) * 301, which exceeds the
    maximal number of loop iterations (each iteration either consumes a
    device byte or increments the idle counter, which is capped at 300).
-/

set_option maxRecDepth 100000

/-- Driver statistics (struct uart_stats, src/rpi2.h lines 84-90). -/
structure Stats where
  tx_bytes : Nat
  rx_bytes : Nat
  tx_errors : Nat
  rx_errors : Nat
  fifo_overruns : Nat
deriving DecidableEq, Repr

/-- Driver configuration (struct uart_config, src/rpi2.h lines 77-81).
data_bits holds the MU_LCR encoding: DATA_BITS_7 = 0x0, DATA_BITS_8 = 0x3. -/
structure Config where
  baudrate : Nat
  data_bits : Nat
  system_clock : Nat
deriving DecidableEq, Repr

/-- Last-written values of the Mini UART registers touched by the driver
(struct uart_regs, src/rpi2.h lines 42-57); the data I/O register is modelled
separately as the wire byte list. -/
structure Regs where
  enables : Nat
  mu_ier : Nat
  mu_iir : Nat
  mu_lcr : Nat
  mu_mcr : Nat
  mu_cntl : Nat
  mu_baud : Nat
deriving DecidableEq, Repr

/-- The two failure causes of calculate_baud_register (both returned as
-EINVAL in the source, distinguished by their pr_err sites; the spec names
them InvalidBaudRate and BaudOverflow). -/
inductive BaudError where
  | invalidBaudRate
  | baudOverflow
deriving DecidableEq, Repr

/-- The enumerated supported baud rates (src/rpi2.h lines 66-70, validated in
uart_config_write lines 399-401). -/
def supportedRates : List Nat := [9600, 19200, 38400, 57600, 115200]

/-- calculate_baud_register (src/unnamed/part_000 lines 34-54).
u32 note: under the guard baudrate <= clock / 8 (with clock < 2^32) the
denominator 8 * baudrate is at most 2^32 - 8, and clock / denominator >= 1,
so neither the multiplication nor the subtraction wraps; Nat arithmetic
therefore coincides with the source's u32 arithmetic. -/
def calculate_baud_register (baudrate clock : Nat) : Except BaudError Nat :=
  if baudrate = 0 ∨ baudrate > clock / 8 then
    .error .invalidBaudRate
  else
    let denominator := 8 * baudrate
    let res := clock / denominator - 1
    if res > 0xFFFF then
      .error .baudOverflow
    else
      .ok res

/-- The bounded-wait-then-write body of uart_send_char (src/unnamed/part_000
lines 181-195): `ok` is the oracle's answer for this poll (whether the
line-status transmit-space bit was observed within the 10 ms bound).
On timeout: tx_errors is incremented and nothing is written; on success the
byte (masked to 8 bits, line 194: `c & 0xFF`) goes to the data register
(the wire) and tx_bytes is incremented. -/
def uart_send_core (ok : Bool) (c : Nat) (st : Stats) : List Nat × Stats :=
  if ok then
    ([c % 256], { st with tx_bytes := st.tx_bytes + 1 })
  else
    ([], { st with tx_errors := st.tx_errors + 1 })

/-- uart_send_char (src/unnamed/part_000 lines 172-196). The source recurses
once when c is the line feed (10), sending a carriage return (13) first; since
13 is not 10, that recursive call is exactly one uart_send_core step, so the
recursion is unrolled here. `n` indexes successive bounded waits into the
oracle `lsr`; the result is (wire bytes, next oracle index, stats). -/
def uart_send_char (lsr : Nat → Bool) (n : Nat) (c : Nat) (st : Stats) :
    List Nat × Nat × Stats :=
  if c = 10 then
    let r1 := uart_send_core (lsr n) 13 st
    let r2 := uart_send_core (lsr (n + 1)) c r1.2
    (r1.1 ++ r2.1, n + 2, r2.2)
  else
    let r := uart_send_core (lsr n) c st
    (r.1, n + 1, r.2)

/-- uart_send_string (src/unnamed/part_000 lines 199-211). The C loop
`while (*s)` walks the NUL-terminated buffer, so the input list is consumed
up to its first 0 byte; for a line feed the loop sends an extra carriage
return before calling uart_send_char (which adds its own). Returns
(input bytes consumed by the loop, wire bytes, next oracle index, stats).
The tx mutex held across the call is not modelled (sequential semantics). -/
def uart_send_string (lsr : Nat → Bool) : List Nat → Nat → Stats →
    List Nat × List Nat × Nat × Stats
  | [], n, st => ([], [], n, st)
  | c :: rest, n, st =>
    if c = 0 then
      ([], [], n, st)
    else
      let r1 := if c = 10 then uart_send_char lsr n 13 st else ([], n, st)
      let r2 := uart_send_char lsr r1.2.1 c r1.2.2
      let r3 := uart_send_string lsr rest r2.2.1 r2.2.2
      (c :: r3.1, r1.1 ++ r2.1 ++ r3.2.1, r3.2.2.1, r3.2.2.2)

/-- uart_proc_write (src/unnamed/part_000 lines 319-339): copies
min(count, 511) bytes into the 512-byte kernel buffer, NUL-terminates it,
hands it to uart_send_string, and returns the full original count.
`data` is the caller's buffer, so count = data.length. Result:
(returned count, input bytes passed to the transmit path, wire bytes,
next oracle index, stats). copy_from_user faults are not modelled. -/
def uart_proc_write (data : List Nat) (lsr : Nat → Bool) (n : Nat)
    (st : Stats) : Nat × List Nat × List Nat × Nat × Stats :=
  let len := min data.length 511
  let kbuf := data.take len
  let r := uart_send_string lsr kbuf n st
  (data.length, r.1, r.2.1, r.2.2.1, r.2.2.2)

/-- The line-ending expansion observable on the wire when no transmit timeout
occurs: each line feed in the input yields carriage-return, carriage-return,
line-feed (one from the string loop, one from inside uart_send_char), and
every other byte passes through unchanged. -/
def lfExpand : List Nat → List Nat
  | [] => []
  | c :: rest => (if c = 10 then [13, 13, 10] else [c]) ++ lfExpand rest

/-- noBareLf prev w holds when every line-feed byte in w is immediately
preceded by a carriage return (prev is the byte preceding w, if any). -/
def noBareLf : Nat → List Nat → Bool
  | _, [] => true
  | prev, c :: rest => (c != 10 || prev == 13) && noBareLf c rest

/-- uart_data_available (src/unnamed/part_000 lines 214-217): the device
model is the list of pending receive bytes; data is available iff it is
nonempty. -/
def uart_data_available (dev : List Nat) : Bool := !dev.isEmpty

/-- uart_receive_char (src/unnamed/part_000 lines 231-241): returns 0 when
no data is available; otherwise checks the overrun bit (never set by this
static device model, so fifo_overruns is untouched), increments rx_bytes and
returns the head byte masked to 8 bits (line 240: `readl(&uart->MU_IO) &
0xFF`). Result: (byte, remaining device bytes, stats). -/
def uart_receive_char : List Nat → Stats → Nat × List Nat × Stats
  | [], st => (0, [], st)
  | b :: rest, st => (b % 256, rest, { st with rx_bytes := st.rx_bytes + 1 })

/-- The inner drain loop of uart_proc_read (src/unnamed/part_000 lines
274-280): while data is available and fewer than 511 bytes (sizeof(kbuf)-1)
and fewer than count have been stored, read a byte; a nonzero byte is
appended and resets consecutive_no_data, a zero byte is discarded. Result:
(remaining device bytes, accumulated bytes, consecutive_no_data, stats). -/
def rxInner (count : Nat) : List Nat → List Nat → Nat → Stats →
    List Nat × List Nat × Nat × Stats
  | [], acc, idle, st => ([], acc, idle, st)
  | b :: rest, acc, idle, st =>
    if acc.length < 511 ∧ acc.length < count then
      let r := uart_receive_char (b :: rest) st
      if r.1 ≠ 0 then rxInner count rest (acc ++ [r.1]) 0 r.2.2
      else rxInner count rest acc idle r.2.2
    else (b :: rest, acc, idle, st)

/-- The outer loop of uart_proc_read (src/unnamed/part_000 lines 273-297),
with a structural fuel argument for computability: each iteration runs the
inner drain, then — exactly as in both branches of the source's idle check —
if no data is available it sleeps, increments consecutive_no_data and breaks
once that reaches MAX_CONSECUTIVE_NO_DATA = 300; if data is still available
the inner loop must have hit the byte limit, so the while condition fails and
the loop exits. `sleeps` counts the idle sleeps taken. Result:
(accumulated bytes, remaining device bytes, sleeps, stats). -/
def rxOuterF (count : Nat) : Nat → List Nat → List Nat → Nat → Nat → Stats →
    List Nat × List Nat × Nat × Stats
  | 0, dev, acc, _idle, sleeps, st => (acc, dev, sleeps, st)
  | fuel + 1, dev, acc, idle, sleeps, st =>
    if acc.length < 511 ∧ acc.length < count then
      let r := rxInner count dev acc idle st
      if r.1.isEmpty then
        if r.2.2.1 + 1 ≥ 300 then (r.2.1, r.1, sleeps + 1, r.2.2.2)
        else rxOuterF count fuel r.1 r.2.1 (r.2.2.1 + 1) (sleeps + 1) r.2.2.2
      else (r.2.1, r.1, sleeps, r.2.2.2)
    else (acc, dev, sleeps, st)

/-- uart_proc_read (src/unnamed/part_000 lines 245-316). Against the static
device model the initial bounded wait (1 s, lines 262-270) succeeds at once
when data is pending and times out returning 0 bytes otherwise. The fuel
(dev.length + 1) * 301 exceeds the maximal number of outer-loop iterations:
each iteration either consumes at least one device byte or increments the
idle counter, which is capped at 300. Result: (bytes returned to the caller,
remaining device bytes, idle sleeps taken, stats); user-copy faults are not
modelled. -/
def uart_proc_read (count : Nat) (dev : List Nat) (st : Stats) :
    List Nat × List Nat × Nat × Stats :=
  if dev.isEmpty then ([], dev, 0, st)
  else rxOuterF count ((dev.length + 1) * 301) dev [] 0 0 st

/-- DATA_BITS_7 (src/rpi2.h line 73): MU_LCR 7-bit mode. -/
def DATA_BITS_7 : Nat := 0x0

/-- DATA_BITS_8 (src/rpi2.h line 74): MU_LCR 8-bit mode. -/
def DATA_BITS_8 : Nat := 0x3

/-- uart_clear_fifos (src/unnamed/part_000 lines 57-64): writes the
RX-clear code then the TX-clear code to MU_IIR (the settle sleep has no
modelled effect). -/
def uart_clear_fifos (r : Regs) : Regs :=
  let r1 := { r with mu_iir := 0x02 }
  { r1 with mu_iir := 0x04 }

/-- uart_apply_config (src/unnamed/part_000 lines 67-101): computes the
divisor from the (already stored) configuration; on failure returns -EINVAL
touching no register; on success disables TX/RX, clears FIFOs, writes the
data-bits field and the divisor, and re-enables TX/RX. The config mutex and
the write barrier are not modelled (sequential semantics). -/
def uart_apply_config (c : Config) (r : Regs) : Except BaudError Regs :=
  match calculate_baud_register c.baudrate c.system_clock with
  | .error e => .error e
  | .ok baud_reg =>
    let r1 := { r with mu_cntl := 0 }
    let r2 := uart_clear_fifos r1
    let r3 := { r2 with mu_lcr := c.data_bits }
    let r4 := { r3 with mu_baud := baud_reg }
    .ok { r4 with mu_cntl := 0x3 }

/-- isDigitB b: whether byte b is an ASCII decimal digit. -/
def isDigitB (b : Nat) : Bool := 48 ≤ b && b ≤ 57

/-- Greedy decimal accumulation for the %u conversion: consumes digits and
stops at the first non-digit, as sscanf does. -/
def parseDigitsAux : List Nat → Nat → Nat
  | [], acc => acc
  | b :: rest, acc =>
    if isDigitB b then parseDigitsAux rest (acc * 10 + (b - 48)) else acc

/-- Models sscanf(kbuf, "baud=%u", &new_baud) == 1 (src/unnamed/part_000
line 397): the literal prefix b a u d = followed by at least one decimal
digit; digits are consumed greedily and any trailing bytes are ignored,
exactly as sscanf does. (sscanf's leading-whitespace and sign handling for
%u is not modelled; it does not affect the claims.) -/
def parseBaudCmd : List Nat → Option Nat
  | 98 :: 97 :: 117 :: 100 :: 61 :: rest =>
    match rest with
    | b :: _ => if isDigitB b then some (parseDigitsAux rest 0) else none
    | [] => none
  | _ => none

/-- strncmp(kbuf, p, p.length) == 0 for an ASCII literal p: the first
p.length bytes of kbuf equal p (a shorter kbuf, or an embedded NUL, fails
the comparison just as strncmp stopping at the NUL does). -/
def cmdMatch (p kbuf : List Nat) : Bool := kbuf.take p.length == p

/-- The bytes of "bits=8" (compared with strncmp length 6, line 415). -/
def bits8Cmd : List Nat := [98, 105, 116, 115, 61, 56]

/-- The bytes of "bits=7" (compared with strncmp length 6, line 422). -/
def bits7Cmd : List Nat := [98, 105, 116, 115, 61, 55]

/-- The bytes of "clear_fifo" (compared with strncmp length 10, line 430). -/
def clearFifoCmd : List Nat := [99, 108, 101, 97, 114, 95, 102, 105, 102, 111]

/-- The bytes of "reset_stats" (compared with strncmp length 11, line 435). -/
def resetStatsCmd : List Nat :=
  [114, 101, 115, 101, 116, 95, 115, 116, 97, 116, 115]

/-- The driver's mutable module state: the stored configuration, the
statistics and the (last-written) device registers. -/
structure DevState where
  config : Config
  stats : Stats
  regs : Regs
deriving DecidableEq, Repr

/-- uart_config_write (src/unnamed/part_000 lines 381-445): kbuf holds
min(count, 127) bytes of the user buffer (128-byte local buffer,
NUL-terminated); dispatch order is sscanf "baud=%u" first, then the strncmp
prefix checks for bits=8, bits=7, clear_fifo, reset_stats, else -EINVAL.
The source stores the new baudrate / data_bits into the configuration
BEFORE calling uart_apply_config, so on an apply failure the stored value
remains (no rollback). Result: (return value — the full count on success,
-22 = -EINVAL on failure; the new state; whether the uart_apply_config step
was reached and failed). -/
def uart_config_write (kbufIn : List Nat) (s : DevState) :
    Int × DevState × Bool :=
  let count := kbufIn.length
  let kbuf := kbufIn.take 127
  match parseBaudCmd kbuf with
  | some new_baud =>
    if new_baud ≠ 9600 ∧ new_baud ≠ 19200 ∧ new_baud ≠ 38400 ∧
        new_baud ≠ 57600 ∧ new_baud ≠ 115200 then
      (-22, s, false)
    else
      let c' := { s.config with baudrate := new_baud }
      match uart_apply_config c' s.regs with
      | .error _ => (-22, { s with config := c' }, true)
      | .ok r' => ((count : Int), { s with config := c', regs := r' }, false)
  | none =>
    if cmdMatch bits8Cmd kbuf then
      let c' := { s.config with data_bits := DATA_BITS_8 }
      match uart_apply_config c' s.regs with
      | .error _ => (-22, { s with config := c' }, true)
      | .ok r' => ((count : Int), { s with config := c', regs := r' }, false)
    else if cmdMatch bits7Cmd kbuf then
      let c' := { s.config with data_bits := DATA_BITS_7 }
      match uart_apply_config c' s.regs with
      | .error _ => (-22, { s with config := c' }, true)
      | .ok r' => ((count : Int), { s with config := c', regs := r' }, false)
    else if cmdMatch clearFifoCmd kbuf then
      ((count : Int), { s with regs := uart_clear_fifos s.regs }, false)
    else if cmdMatch resetStatsCmd kbuf then
      ((count : Int), { s with stats := ⟨0, 0, 0, 0, 0⟩ }, false)
    else
      (-22, s, false)

/-- The configuration fields formatted by uart_config_read (src/unnamed/
part_000 lines 352-366): baudrate, data-bits field, system clock. -/
def uart_config_read_vals (s : DevState) : Nat × Nat × Nat :=
  (s.config.baudrate, s.config.data_bits, s.config.system_clock)

/-- The five counters formatted by uart_stats_read (src/unnamed/part_000
lines 501-514). -/
def uart_stats_read_vals (s : DevState) : Nat × Nat × Nat × Nat × Nat :=
  (s.stats.tx_bytes, s.stats.rx_bytes, s.stats.tx_errors,
    s.stats.rx_errors, s.stats.fifo_overruns)

/-- One external operation against the driver's endpoints; each carries its
environment (user bytes, poll oracle, pending device bytes). -/
inductive Op where
  | procWrite (data : List Nat) (lsr : Nat → Bool)
  | procRead (cnt : Nat) (dev : List Nat)
  | configWrite (kbuf : List Nat)
  | configRead
  | statusRead
  | statsRead

/-- The state transition of each endpoint handler: the TX and RX handlers
touch only the statistics; uart_config_write may change configuration,
registers and (for reset_stats) statistics; the read-only handlers change
nothing. -/
def stepOp (s : DevState) (op : Op) : DevState :=
  match op with
  | .procWrite data lsr =>
    { s with stats := (uart_proc_write data lsr 0 s.stats).2.2.2.2 }
  | .procRead cnt dev =>
    { s with stats := (uart_proc_read cnt dev s.stats).2.2.2 }
  | .configWrite kbuf => (uart_config_write kbuf s).2.1
  | .configRead => s
  | .statusRead => s
  | .statsRead => s

/-- Whether a config write is dispatched to the reset_stats branch
(reached only when the sscanf and the earlier strncmp checks all fail). -/
def cmdIsReset (kbufIn : List Nat) : Bool :=
  let kbuf := kbufIn.take 127
  (parseBaudCmd kbuf).isNone && !cmdMatch bits8Cmd kbuf &&
    !cmdMatch bits7Cmd kbuf && !cmdMatch clearFifoCmd kbuf &&
    cmdMatch resetStatsCmd kbuf

/-- Whether an operation is the reset_stats command. -/
def opIsReset : Op → Bool
  | .configWrite kbuf => cmdIsReset kbuf
  | _ => false

/-- Pointwise order on the five counters. -/
def statsLe (a b : Stats) : Prop :=
  a.tx_bytes ≤ b.tx_bytes ∧ a.rx_bytes ≤ b.rx_bytes ∧
    a.tx_errors ≤ b.tx_errors ∧ a.rx_errors ≤ b.rx_errors ∧
    a.fifo_overruns ≤ b.fifo_overruns

/-- The invariant every reachable driver state satisfies: the stored baud
rate is one of the five enumerated rates (the initial 9600 from lines 12-16,
and uart_config_write validates before storing) and the system clock is the
fixed 500 MHz (nothing ever writes it). -/
def uartInv (s : DevState) : Prop :=
  s.config.baudrate ∈ supportedRates ∧ s.config.system_clock = 500000000

/-- The compile-time default configuration (src/unnamed/part_000 lines
12-16): 9600 baud, 8 data bits, 500 MHz system clock. -/
def initConfig : Config := ⟨9600, DATA_BITS_8, 500000000⟩

lemma uart_send_string_consumed (lsr : Nat → Bool) :
    ∀ (s : List Nat) (n : Nat) (st : Stats),
      (uart_send_string lsr s n st).1 = s.takeWhile (fun b => b != 0)
  | [], _, _ => rfl
  | c :: rest, n, st => by
    by_cases h0 : c = 0
    · subst h0
      simp [uart_send_string, List.takeWhile_cons]
    · simp [uart_send_string, List.takeWhile_cons, h0,
        uart_send_string_consumed lsr rest]

lemma uart_send_char_all_ok (n c : Nat) (st : Stats) :
    uart_send_char (fun _ => true) n c st =
      if c = 10 then
        ([13, 10], n + 2,
          { st with tx_bytes := st.tx_bytes + 1 + 1 })
      else
        ([c % 256], n + 1, { st with tx_bytes := st.tx_bytes + 1 }) := by
  by_cases h : c = 10
  · subst h
    simp [uart_send_char, uart_send_core]
  · simp [uart_send_char, uart_send_core, h]

lemma uart_send_string_wire_all_ok :
    ∀ (s : List Nat) (n : Nat) (st : Stats), (∀ b ∈ s, b < 256) →
      (uart_send_string (fun _ => true) s n st).2.1 =
        lfExpand (s.takeWhile (fun b => b != 0))
  | [], _, _, _ => rfl
  | c :: rest, n, st, h => by
    have hc : c < 256 := h c (by simp)
    have hrest : ∀ b ∈ rest, b < 256 := fun b hb => h b (by simp [hb])
    by_cases h0 : c = 0
    · subst h0
      simp [uart_send_string, List.takeWhile_cons, lfExpand]
    · by_cases h10 : c = 10
      · subst h10
        simp [uart_send_string, uart_send_char_all_ok, h0,
          List.takeWhile_cons, lfExpand,
          uart_send_string_wire_all_ok rest _ _ hrest]
      · simp [uart_send_string, uart_send_char_all_ok, h0, h10,
          List.takeWhile_cons, lfExpand, Nat.mod_eq_of_lt hc,
          uart_send_string_wire_all_ok rest _ _ hrest]

lemma noBareLf_lfExpand : ∀ (s : List Nat) (p : Nat),
    noBareLf p (lfExpand s) = true
  | [], _ => rfl
  | c :: rest, p => by
    by_cases h10 : c = 10
    · subst h10
      simp [lfExpand, noBareLf, noBareLf_lfExpand rest]
    · simp [lfExpand, noBareLf, h10, noBareLf_lfExpand rest]

lemma rxInner_drain (count : Nat) : ∀ (dev acc : List Nat) (idle : Nat)
    (st : Stats), (∀ b ∈ dev, b < 256) → (∀ b ∈ dev, b ≠ 0) →
    acc.length + dev.length ≤ 511 → acc.length + dev.length ≤ count →
    rxInner count dev acc idle st =
      ([], acc ++ dev, if dev.isEmpty then idle else 0,
        { st with rx_bytes := st.rx_bytes + dev.length })
  | [], acc, idle, st, _, _, _, _ => by
    simp [rxInner]
  | b :: rest, acc, idle, st, h256, h0, h511, hcount => by
    have hb : b < 256 := h256 b (by simp)
    have hbne : b ≠ 0 := h0 b (by simp)
    simp only [List.length_cons] at h511 hcount
    have hlt : acc.length < 511 ∧ acc.length < count := ⟨by omega, by omega⟩
    have hIH := rxInner_drain count rest (acc ++ [b]) 0
      { st with rx_bytes := st.rx_bytes + 1 }
      (fun x hx => h256 x (by simp [hx])) (fun x hx => h0 x (by simp [hx]))
      (by simp; omega) (by simp; omega)
    simp only [rxInner, if_pos hlt, uart_receive_char,
      Nat.mod_eq_of_lt hb, if_pos hbne, hIH]
    simp [hbne]
    omega

lemma rxOuterF_countdown (count : Nat) : ∀ (fuel : Nat) (acc : List Nat)
    (idle sleeps : Nat) (st : Stats), idle < 300 → 300 - idle ≤ fuel →
    ∃ s', rxOuterF count fuel [] acc idle sleeps st = (acc, [], s', st) ∧
      sleeps ≤ s' ∧ s' ≤ sleeps + (300 - idle)
  | 0, acc, idle, sleeps, st, hidle, hfuel => by
    exfalso
    omega
  | fuel + 1, acc, idle, sleeps, st, hidle, hfuel => by
    by_cases hg : acc.length < 511 ∧ acc.length < count
    · by_cases hstop : idle + 1 ≥ 300
      · refine ⟨sleeps + 1, ?_, by omega, by omega⟩
        simp [rxOuterF, hg, rxInner, hstop]
      · obtain ⟨s', heq, h1, h2⟩ := rxOuterF_countdown count fuel acc
          (idle + 1) (sleeps + 1) st (by omega) (by omega)
        refine ⟨s', ?_, by omega, by omega⟩
        simp [rxOuterF, hg, rxInner, hstop, heq]
    · refine ⟨sleeps, ?_, by omega, by omega⟩
      simp [rxOuterF, hg]

lemma filter_length_count : ∀ l : List Nat,
    (l.filter (fun b => b != 0)).length + l.count 0 = l.length
  | [] => rfl
  | b :: rest => by
    by_cases h : b = 0
    · subst h
      simp only [List.filter_cons, List.count_cons]
      have := filter_length_count rest
      simp only [bne_self_eq_false, Bool.false_eq_true, if_false]
      simp
      omega
    · simp only [List.filter_cons, List.count_cons]
      have := filter_length_count rest
      have hb : (b != 0) = true := by simp [h]
      simp [hb, h]
      omega

lemma rxInner_spec (count : Nat) : ∀ (dev acc : List Nat) (idle : Nat)
    (st : Stats), (∀ b ∈ dev, b < 256) →
    ∃ consumed : List Nat,
      dev = consumed ++ (rxInner count dev acc idle st).1 ∧
      (rxInner count dev acc idle st).2.1 =
        acc ++ consumed.filter (fun b => b != 0) ∧
      (rxInner count dev acc idle st).2.2.2 =
        { st with rx_bytes := st.rx_bytes + consumed.length }
  | [], acc, idle, st, _ =>
    ⟨[], by simp [rxInner], by simp [rxInner], by simp [rxInner]⟩
  | b :: rest, acc, idle, st, h256 => by
    have hb : b < 256 := h256 b (by simp)
    have hrest : ∀ x ∈ rest, x < 256 := fun x hx => h256 x (by simp [hx])
    by_cases hg : acc.length < 511 ∧ acc.length < count
    · by_cases hb0 : b = 0
      · subst hb0
        have hstep : rxInner count (0 :: rest) acc idle st =
            rxInner count rest acc idle
              { st with rx_bytes := st.rx_bytes + 1 } := by
          simp [rxInner, hg, uart_receive_char]
        obtain ⟨c', h1, h2, h3⟩ := rxInner_spec count rest acc idle
          { st with rx_bytes := st.rx_bytes + 1 } hrest
        refine ⟨0 :: c', ?_, ?_, ?_⟩
        · rw [hstep]
          simpa using h1
        · rw [hstep, h2]
          simp [List.filter_cons]
        · rw [hstep, h3]
          simp [Stats.mk.injEq]
          omega
      · have hstep : rxInner count (b :: rest) acc idle st =
            rxInner count rest (acc ++ [b]) 0
              { st with rx_bytes := st.rx_bytes + 1 } := by
          simp [rxInner, hg, uart_receive_char, Nat.mod_eq_of_lt hb, hb0]
        obtain ⟨c', h1, h2, h3⟩ := rxInner_spec count rest (acc ++ [b]) 0
          { st with rx_bytes := st.rx_bytes + 1 } hrest
        refine ⟨b :: c', ?_, ?_, ?_⟩
        · rw [hstep]
          simpa using h1
        · rw [hstep, h2]
          simp [List.filter_cons, hb0]
        · rw [hstep, h3]
          simp [Stats.mk.injEq]
          omega
    · exact ⟨[], by simp [rxInner, hg], by simp [rxInner, hg],
        by simp [rxInner, hg]⟩

lemma rxOuterF_spec (count : Nat) : ∀ (fuel : Nat) (dev acc : List Nat)
    (idle sleeps : Nat) (st : Stats), (∀ b ∈ dev, b < 256) →
    ∃ consumed : List Nat,
      dev = consumed ++ (rxOuterF count fuel dev acc idle sleeps st).2.1 ∧
      (rxOuterF count fuel dev acc idle sleeps st).1 =
        acc ++ consumed.filter (fun b => b != 0) ∧
      (rxOuterF count fuel dev acc idle sleeps st).2.2.2 =
        { st with rx_bytes := st.rx_bytes + consumed.length }
  | 0, dev, acc, idle, sleeps, st, _ =>
    ⟨[], by simp [rxOuterF], by simp [rxOuterF], by simp [rxOuterF]⟩
  | fuel + 1, dev, acc, idle, sleeps, st, h256 => by
    by_cases hg : acc.length < 511 ∧ acc.length < count
    · obtain ⟨c1, h1, h2, h3⟩ := rxInner_spec count dev acc idle st h256
      rcases hr : rxInner count dev acc idle st with ⟨dev', acc', idle', st'⟩
      rw [hr] at h1 h2 h3
      simp only at h1 h2 h3
      by_cases hdev' : dev'.isEmpty
      · by_cases hstop : idle' + 1 ≥ 300
        · have hstep : rxOuterF count (fuel + 1) dev acc idle sleeps st =
              (acc', dev', sleeps + 1, st') := by
            simp [rxOuterF, hg, hr, hdev', hstop]
          exact ⟨c1, by rw [hstep]; exact h1, by rw [hstep]; exact h2,
            by rw [hstep]; exact h3⟩
        · have hstep : rxOuterF count (fuel + 1) dev acc idle sleeps st =
              rxOuterF count fuel dev' acc' (idle' + 1) (sleeps + 1) st' := by
            simp [rxOuterF, hg, hr, hdev', hstop]
          have h256' : ∀ x ∈ dev', x < 256 := fun x hx =>
            h256 x (by rw [h1]; exact List.mem_append.2 (Or.inr hx))
          obtain ⟨c2, g1, g2, g3⟩ := rxOuterF_spec count fuel dev' acc'
            (idle' + 1) (sleeps + 1) st' h256'
          refine ⟨c1 ++ c2, ?_, ?_, ?_⟩
          · rw [hstep]
            conv_lhs => rw [h1]
            conv_lhs => rw [g1]
            simp
          · rw [hstep, g2, h2]
            simp [List.filter_append]
          · rw [hstep, g3, h3]
            simp [Stats.mk.injEq]
            omega
      · have hstep : rxOuterF count (fuel + 1) dev acc idle sleeps st =
            (acc', dev', sleeps, st') := by
          simp [rxOuterF, hg, hr, hdev']
        exact ⟨c1, by rw [hstep]; exact h1, by rw [hstep]; exact h2,
          by rw [hstep]; exact h3⟩
    · exact ⟨[], by simp [rxOuterF, hg], by simp [rxOuterF, hg],
        by simp [rxOuterF, hg]⟩

lemma uartInv_init (st : Stats) (r : Regs) :
    uartInv ⟨initConfig, st, r⟩ := by
  constructor
  · show initConfig.baudrate ∈ supportedRates
    decide
  · rfl

lemma uartInv_stepOp (s : DevState) (op : Op) (h : uartInv s) :
    uartInv (stepOp s op) := by
  obtain ⟨hb, hc⟩ := h
  cases op with
  | procWrite data lsr => exact ⟨hb, hc⟩
  | procRead cnt dev => exact ⟨hb, hc⟩
  | configRead => exact ⟨hb, hc⟩
  | statusRead => exact ⟨hb, hc⟩
  | statsRead => exact ⟨hb, hc⟩
  | configWrite kbuf =>
    simp only [stepOp]
    unfold uart_config_write
    cases hp : parseBaudCmd (kbuf.take 127) with
    | some nb =>
      by_cases hval : nb ≠ 9600 ∧ nb ≠ 19200 ∧ nb ≠ 38400 ∧ nb ≠ 57600 ∧
          nb ≠ 115200
      · simp only [hp, if_pos hval]
        exact ⟨hb, hc⟩
      · have hmem : nb ∈ supportedRates := by
          simp only [supportedRates, List.mem_cons, List.not_mem_nil,
            or_false]
          tauto
        cases happ : uart_apply_config
            ⟨nb, s.config.data_bits, s.config.system_clock⟩ s.regs with
        | error e =>
          simp only [hp, if_neg hval, happ]
          exact ⟨hmem, hc⟩
        | ok r' =>
          simp only [hp, if_neg hval, happ]
          exact ⟨hmem, hc⟩
    | none =>
      by_cases h8 : cmdMatch bits8Cmd (kbuf.take 127)
      · cases happ : uart_apply_config
            ⟨s.config.baudrate, DATA_BITS_8, s.config.system_clock⟩
            s.regs with
        | error e =>
          simp only [hp, h8, if_true]
          simp only [happ]
          exact ⟨hb, hc⟩
        | ok r' =>
          simp only [hp, h8, if_true]
          simp only [happ]
          exact ⟨hb, hc⟩
      · by_cases h7 : cmdMatch bits7Cmd (kbuf.take 127)
        · cases happ : uart_apply_config
              ⟨s.config.baudrate, DATA_BITS_7, s.config.system_clock⟩
              s.regs with
          | error e =>
            simp only [hp, h8, h7, Bool.false_eq_true, if_false, if_true]
            simp only [happ]
            exact ⟨hb, hc⟩
          | ok r' =>
            simp only [hp, h8, h7, Bool.false_eq_true, if_false, if_true]
            simp only [happ]
            exact ⟨hb, hc⟩
        · by_cases hcf : cmdMatch clearFifoCmd (kbuf.take 127)
          · simp only [hp, h8, h7, hcf, Bool.false_eq_true, if_false,
              if_true]
            exact ⟨hb, hc⟩
          · by_cases hrs : cmdMatch resetStatsCmd (kbuf.take 127)
            · simp only [hp, h8, h7, hcf, hrs, Bool.false_eq_true,
                if_false, if_true]
              exact ⟨hb, hc⟩
            · simp only [hp, h8, h7, hcf, hrs, Bool.false_eq_true,
                if_false]
              exact ⟨hb, hc⟩

lemma statsLe_refl (a : Stats) : statsLe a a :=
  ⟨le_refl _, le_refl _, le_refl _, le_refl _, le_refl _⟩

lemma statsLe_trans {a b c : Stats} (h1 : statsLe a b) (h2 : statsLe b c) :
    statsLe a c := by
  obtain ⟨x1, x2, x3, x4, x5⟩ := h1
  obtain ⟨y1, y2, y3, y4, y5⟩ := h2
  exact ⟨le_trans x1 y1, le_trans x2 y2, le_trans x3 y3, le_trans x4 y4,
    le_trans x5 y5⟩

lemma statsLe_send_char (lsr : Nat → Bool) (n c : Nat) (st : Stats) :
    statsLe st (uart_send_char lsr n c st).2.2 := by
  unfold uart_send_char uart_send_core
  by_cases h : c = 10 <;> cases h1 : lsr n <;> cases h2 : lsr (n + 1) <;>
    simp [h, h1, h2, statsLe] <;> omega

lemma statsLe_send_string (lsr : Nat → Bool) : ∀ (s : List Nat) (n : Nat)
    (st : Stats), statsLe st (uart_send_string lsr s n st).2.2.2
  | [], _, st => statsLe_refl st
  | c :: rest, n, st => by
    by_cases h0 : c = 0
    · subst h0
      simp only [uart_send_string, if_pos rfl]
      exact statsLe_refl st
    · simp only [uart_send_string, if_neg h0]
      refine statsLe_trans ?_ (statsLe_send_string lsr rest _ _)
      refine statsLe_trans ?_ (statsLe_send_char lsr _ c _)
      by_cases h10 : c = 10
      · simp only [if_pos h10]
        exact statsLe_send_char lsr n 13 st
      · simp only [if_neg h10]
        exact statsLe_refl st

lemma statsLe_rxInner (count : Nat) : ∀ (dev acc : List Nat) (idle : Nat)
    (st : Stats), statsLe st (rxInner count dev acc idle st).2.2.2
  | [], _, _, st => statsLe_refl st
  | b :: rest, acc, idle, st => by
    by_cases hg : acc.length < 511 ∧ acc.length < count
    · have hbump : statsLe st { st with rx_bytes := st.rx_bytes + 1 } :=
        ⟨le_refl _, Nat.le_succ _, le_refl _, le_refl _, le_refl _⟩
      by_cases hb0 : b % 256 = 0
      · simp only [rxInner, if_pos hg, uart_receive_char, hb0, ne_eq,
          not_true_eq_false, if_false]
        exact statsLe_trans hbump (statsLe_rxInner count rest _ _ _)
      · simp only [rxInner, if_pos hg, uart_receive_char, ne_eq]
        rw [if_pos hb0]
        exact statsLe_trans hbump (statsLe_rxInner count rest _ _ _)
    · simp only [rxInner, if_neg hg]
      exact statsLe_refl st

lemma statsLe_rxOuterF (count : Nat) : ∀ (fuel : Nat) (dev acc : List Nat)
    (idle sleeps : Nat) (st : Stats),
    statsLe st (rxOuterF count fuel dev acc idle sleeps st).2.2.2
  | 0, _, _, _, _, st => statsLe_refl st
  | fuel + 1, dev, acc, idle, sleeps, st => by
    by_cases hg : acc.length < 511 ∧ acc.length < count
    · have hInner := statsLe_rxInner count dev acc idle st
      by_cases hdev : (rxInner count dev acc idle st).1.isEmpty
      · by_cases hstop : (rxInner count dev acc idle st).2.2.1 + 1 ≥ 300
        · simp only [rxOuterF, if_pos hg, if_pos hdev, if_pos hstop]
          exact hInner
        · simp only [rxOuterF, if_pos hg, if_pos hdev, if_neg hstop]
          exact statsLe_trans hInner (statsLe_rxOuterF count fuel _ _ _ _ _)
      · simp only [rxOuterF, if_pos hg, if_neg hdev]
        exact hInner
    · simp only [rxOuterF, if_neg hg]
      exact statsLe_refl st

lemma uart_apply_config_ok (c : Config) (r : Regs)
    (hb : c.baudrate ∈ supportedRates) (hc : c.system_clock = 500000000) :
    ∃ r', uart_apply_config c r = .ok r' := by
  have hcb : ∃ v, calculate_baud_register c.baudrate c.system_clock =
      .ok v := by
    rw [hc]
    simp only [supportedRates, List.mem_cons, List.not_mem_nil,
      or_false] at hb
    rcases hb with h | h | h | h | h <;> rw [h] <;> exact ⟨_, rfl⟩
  obtain ⟨v, hv⟩ := hcb
  unfold uart_apply_config
  rw [hv]
  exact ⟨_, rfl⟩

lemma uart_config_write_stats_of_not_reset (kbuf : List Nat) (s : DevState)
    (h : cmdIsReset kbuf = false) :
    ((uart_config_write kbuf s).2.1).stats = s.stats := by
  unfold uart_config_write
  cases hp : parseBaudCmd (kbuf.take 127) with
  | some nb =>
    by_cases hval : nb ≠ 9600 ∧ nb ≠ 19200 ∧ nb ≠ 38400 ∧ nb ≠ 57600 ∧
        nb ≠ 115200
    · simp [hp, hval]
    · cases happ : uart_apply_config
          ⟨nb, s.config.data_bits, s.config.system_clock⟩ s.regs with
      | error e => simp [hp, hval, happ]
      | ok r' => simp [hp, hval, happ]
  | none =>
    by_cases h8 : cmdMatch bits8Cmd (kbuf.take 127)
    · cases happ : uart_apply_config
          ⟨s.config.baudrate, DATA_BITS_8, s.config.system_clock⟩ s.regs with
      | error e => simp [hp, h8, happ]
      | ok r' => simp [hp, h8, happ]
    · by_cases h7 : cmdMatch bits7Cmd (kbuf.take 127)
      · cases happ : uart_apply_config
            ⟨s.config.baudrate, DATA_BITS_7, s.config.system_clock⟩
            s.regs with
        | error e => simp [hp, h8, h7, happ]
        | ok r' => simp [hp, h8, h7, happ]
      · by_cases hcf : cmdMatch clearFifoCmd (kbuf.take 127)
        · simp [hp, h8, h7, hcf]
        · by_cases hrs : cmdMatch resetStatsCmd (kbuf.take 127)
          · exfalso
            simp [cmdIsReset, hp, h8, h7, hcf, hrs] at h
          · simp [hp, h8, h7, hcf, hrs]

lemma uart_config_write_stats_of_reset (kbuf : List Nat) (s : DevState)
    (h : cmdIsReset kbuf = true) :
    ((uart_config_write kbuf s).2.1).stats = ⟨0, 0, 0, 0, 0⟩ := by
  simp only [cmdIsReset, Bool.and_eq_true, Bool.not_eq_true',
    Option.isNone_iff_eq_none] at h
  obtain ⟨⟨⟨⟨hpn, h8⟩, h7⟩, hcf⟩, hrs⟩ := h
  unfold uart_config_write
  simp [hpn, h8, h7, hcf, hrs]

/-- C1: from any reachable state (stored baud rate one of the five
enumerated rates, system clock the fixed 500 MHz), the uart_apply_config
step of a configuration-change command never fails — so, vacuously, after
every configuration-change command whose apply step failed the
configuration visible through the config endpooint is unchanged. (The
source has no rollback: it stores the new value before applying; the
failure branch is simply unreachable.) -/
theorem C1_apply_config_never_fails (s : DevState) (kbuf : List Nat)
    (hInv : uartInv s) :
    (uart_config_write kbuf s).2.2 = false ∧
    ((uart_config_write kbuf s).2.2 = true →
      uart_config_read_vals (uart_config_write kbuf s).2.1 =
        uart_config_read_vals s) := by
  obtain ⟨hbaud, hclock⟩ := hInv
  have main : (uart_config_write kbuf s).2.2 = false := by
    unfold uart_config_write
    cases hp : parseBaudCmd (kbuf.take 127) with
    | some nb =>
      by_cases hmem : nb ∈ supportedRates
      · have hval : ¬(nb ≠ 9600 ∧ nb ≠ 19200 ∧ nb ≠ 38400 ∧ nb ≠ 57600 ∧
            nb ≠ 115200) := by
          simp only [supportedRates, List.mem_cons, List.not_mem_nil,
            or_false] at hmem
          tauto
        obtain ⟨r', hr'⟩ := uart_apply_config_ok
          ⟨nb, s.config.data_bits, s.config.system_clock⟩ s.regs hmem hclock
        simp [hp, hval, hr']
      · have hval : nb ≠ 9600 ∧ nb ≠ 19200 ∧ nb ≠ 38400 ∧ nb ≠ 57600 ∧
            nb ≠ 115200 := by
          simp only [supportedRates, List.mem_cons, List.not_mem_nil,
            or_false] at hmem
          tauto
        simp [hp, hval]
    | none =>
      by_cases h8 : cmdMatch bits8Cmd (kbuf.take 127)
      · obtain ⟨r', hr'⟩ := uart_apply_config_ok
          ⟨s.config.baudrate, DATA_BITS_8, s.config.system_clock⟩ s.regs
          hbaud hclock
        simp [hp, h8, hr']
      · by_cases h7 : cmdMatch bits7Cmd (kbuf.take 127)
        · obtain ⟨r', hr'⟩ := uart_apply_config_ok
            ⟨s.config.baudrate, DATA_BITS_7, s.config.system_clock⟩ s.regs
            hbaud hclock
          simp [hp, h8, h7, hr']
        · by_cases hcf : cmdMatch clearFifoCmd (kbuf.take 127)
          · simp [hp, h8, h7, hcf]
          · by_cases hrs : cmdMatch resetStatsCmd (kbuf.take 127)
            · simp [hp, h8, h7, hcf, hrs]
            · simp [hp, h8, h7, hcf, hrs]
  refine ⟨main, fun h => ?_⟩
  rw [main] at h
  exact absurd h (by simp)

/-- Witness for C1: the initial state (9600 baud, 8 data bits, 500 MHz)
receiving a bits=7 command. -/
theorem C1_apply_config_never_fails_witness :
    (uart_config_write bits7Cmd
      ⟨⟨9600, 3, 500000000⟩, ⟨0, 0, 0, 0, 0⟩,
        ⟨1, 0, 4, 3, 0, 3, 6509⟩⟩).2.2 = false ∧
    ((uart_config_write bits7Cmd
      ⟨⟨9600, 3, 500000000⟩, ⟨0, 0, 0, 0, 0⟩,
        ⟨1, 0, 4, 3, 0, 3, 6509⟩⟩).2.2 = true →
      uart_config_read_vals (uart_config_write bits7Cmd
        ⟨⟨9600, 3, 500000000⟩, ⟨0, 0, 0, 0, 0⟩,
          ⟨1, 0, 4, 3, 0, 3, 6509⟩⟩).2.1 =
        uart_config_read_vals
          ⟨⟨9600, 3, 500000000⟩, ⟨0, 0, 0, 0, 0⟩,
            ⟨1, 0, 4, 3, 0, 3, 6509⟩⟩) :=
  C1_apply_config_never_fails
    ⟨⟨9600, 3, 500000000⟩, ⟨0, 0, 0, 0, 0⟩, ⟨1, 0, 4, 3, 0, 3, 6509⟩⟩
    bits7Cmd ⟨by decide, rfl⟩

/-- C2: compute_divisor fails with InvalidBaudRate exactly when b = 0 or
b > c/8 (floor division); otherwise it returns floor(c/(8*b)) - 1, failing
with BaudOverflow exactly when that exceeds 0xFFFF; every supported rate at
clock 500,000,000 yields a 16-bit result; and
compute_divisor(115200, 500000000) = 541. -/
theorem C2_compute_divisor :
    (∀ b c : Nat, calculate_baud_register b c = .error .invalidBaudRate ↔
      (b = 0 ∨ b > c / 8)) ∧
    (∀ b c : Nat, b ≠ 0 → b ≤ c / 8 →
      calculate_baud_register b c =
        if c / (8 * b) - 1 > 0xFFFF then .error .baudOverflow
        else .ok (c / (8 * b) - 1)) ∧
    (∀ b ∈ supportedRates, ∃ v, calculate_baud_register b 500000000 = .ok v ∧
      v ≤ 0xFFFF) ∧
    calculate_baud_register 115200 500000000 = .ok 541 := by
  refine ⟨?_, ?_, ?_, by rfl⟩
  · intro b c
    unfold calculate_baud_register
    constructor
    · intro h
      by_contra hc
      simp only [if_neg hc] at h
      split at h <;> simp_all
    · intro h
      simp [if_pos h]
  · intro b c hb hbc
    unfold calculate_baud_register
    have : ¬(b = 0 ∨ b > c / 8) := by
      push_neg
      exact ⟨hb, hbc⟩
    simp only [if_neg this]
  · intro b hb
    fin_cases hb <;> refine ⟨_, rfl, ?_⟩ <;> decide

/-- Witness for C2 at a concrete input: 9600 baud at 500 MHz gives
divisor 6509. -/
theorem C2_compute_divisor_witness :
    calculate_baud_register 9600 500000000 = .ok 6509 := by
  have h := C2_compute_divisor.2.1 9600 500000000 (by decide) (by decide)
  rw [h]
  rfl

/-- C3 counterexample: a device reporting exactly one pending byte whose
value is 0x00 (N = 1, within the buffer and the requested length 10) makes
receive return no bytes at all — not that one byte — while still counting it
in rx_bytes; the idle drain then runs its full 300 iterations. -/
theorem C3_counterexample_nul_byte :
    uart_proc_read 10 [0] ⟨0, 0, 0, 0, 0⟩ = ([], [], 300, ⟨0, 1, 0, 0, 0⟩) ∧
    ([] : List Nat) ≠ [0] := by
  exact ⟨rfl, by decide⟩

/-- C3 amended: for a device reporting exactly N pending bytes, all nonzero,
with N at most 511 (the copy loop reserves one byte of the 512-byte buffer
for the NUL terminator) and at most the requested length, receive returns
exactly those N bytes in order, consumes the device, adds N to rx_bytes, and
terminates within the idle-drain bound (at most 300 idle sleeps). -/
theorem C3_receive_exact (count : Nat) (dev : List Nat) (st : Stats)
    (h256 : ∀ b ∈ dev, b < 256) (h0 : ∀ b ∈ dev, b ≠ 0)
    (h511 : dev.length ≤ 511) (hcount : dev.length ≤ count) :
    ∃ sleeps, uart_proc_read count dev st =
      (dev, [], sleeps, { st with rx_bytes := st.rx_bytes + dev.length }) ∧
      sleeps ≤ 300 := by
  match dev, h256, h0, h511, hcount with
  | [], _, _, _, _ =>
    refine ⟨0, ?_, by omega⟩
    simp [uart_proc_read]
  | b :: rest, h256, h0, h511, hcount =>
    have hcount1 : 0 < count := by
      simp only [List.length_cons] at hcount
      omega
    have hdrain : rxInner count (b :: rest) [] 0 st =
        ([], b :: rest, 0,
          { st with rx_bytes := st.rx_bytes + (b :: rest).length }) := by
      simpa using rxInner_drain count (b :: rest) [] 0 st h256 h0
        (by simpa using h511) (by simpa using hcount)
    have hfuel : ((b :: rest : List Nat).length + 1) * 301 =
        (((b :: rest : List Nat).length + 1) * 301 - 1) + 1 := by
      simp only [List.length_cons]
      omega
    have hstep : uart_proc_read count (b :: rest) st =
        rxOuterF count (((b :: rest : List Nat).length + 1) * 301 - 1) []
          (b :: rest) 1 1
          { st with rx_bytes := st.rx_bytes + (b :: rest).length } := by
      rw [uart_proc_read, if_neg (by simp), hfuel, rxOuterF]
      simp [hdrain, hcount1]
    by_cases hfull : (b :: rest : List Nat).length < 511 ∧
        (b :: rest : List Nat).length < count
    · obtain ⟨s', heq, hs1, hs2⟩ := rxOuterF_countdown count
        (((b :: rest : List Nat).length + 1) * 301 - 1) (b :: rest) 1 1
        { st with rx_bytes := st.rx_bytes + (b :: rest).length }
        (by omega) (by simp only [List.length_cons]; omega)
      exact ⟨s', by rw [hstep]; exact heq, by omega⟩
    · refine ⟨1, ?_, by omega⟩
      rw [hstep]
      obtain ⟨f', hf'⟩ : ∃ f',
          ((b :: rest : List Nat).length + 1) * 301 - 1 = f' + 1 := by
        refine ⟨((b :: rest : List Nat).length + 1) * 301 - 2, ?_⟩
        simp only [List.length_cons]
        omega
      rw [hf', rxOuterF, if_neg hfull]

/-- Witness for C3 (amended): a device with the two nonzero bytes 72, 105 and
requested length 10 yields exactly those bytes with rx_bytes advanced by 2
within the idle bound. -/
theorem C3_receive_exact_witness :
    ∃ sleeps, uart_proc_read 10 [72, 105] ⟨0, 0, 0, 0, 0⟩ =
      ([72, 105], [], sleeps,
        { (⟨0, 0, 0, 0, 0⟩ : Stats) with rx_bytes := 0 + [72, 105].length }) ∧
      sleeps ≤ 300 :=
  C3_receive_exact 10 [72, 105] ⟨0, 0, 0, 0, 0⟩ (by decide) (by decide)
    (by decide) (by decide)

/-- C4: with transmit space always available (no TxTimeout), the wire output
of send_buffer is the input (up to its first NUL, where the C string loop
stops) with every line feed expanded to CR CR LF — so every line feed on the
wire is immediately preceded by a carriage return, and each embedded line
feed produces two carriage returns before it. -/
theorem C4_crlf_expansion (s : List Nat) (n : Nat) (st : Stats)
    (h : ∀ b ∈ s, b < 256) :
    (uart_send_string (fun _ => true) s n st).2.1 =
      lfExpand (s.takeWhile (fun b => b != 0)) ∧
    noBareLf 0 ((uart_send_string (fun _ => true) s n st).2.1) = true := by
  have hw := uart_send_string_wire_all_ok s n st h
  exact ⟨hw, by rw [hw]; exact noBareLf_lfExpand _ 0⟩

/-- Witness for C4: sending "H\nA" (with a trailing byte after a NUL that is
never reached) produces H CR CR LF A on the wire. -/
theorem C4_crlf_expansion_witness :
    (uart_send_string (fun _ => true) [72, 10, 65, 0, 66] 0
        ⟨0, 0, 0, 0, 0⟩).2.1 =
      lfExpand ([72, 10, 65, 0, 66].takeWhile (fun b => b != 0)) ∧
    noBareLf 0 ((uart_send_string (fun _ => true) [72, 10, 65, 0, 66] 0
        ⟨0, 0, 0, 0, 0⟩).2.1) = true :=
  C4_crlf_expansion [72, 10, 65, 0, 66] 0 ⟨0, 0, 0, 0, 0⟩ (by decide)

/-- C5 counterexample: a 600-byte write is not rejected — uart_proc_write
returns the full count 600 while only 511 bytes reach the transmit path. -/
theorem C5_counterexample_no_rejection :
    (uart_proc_write (List.replicate 600 65) (fun _ => true) 0
        ⟨0, 0, 0, 0, 0⟩).1 = 600 ∧
    ((uart_proc_write (List.replicate 600 65) (fun _ => true) 0
        ⟨0, 0, 0, 0, 0⟩).2.1).length = 511 := by
  constructor
  · rfl
  · simp [uart_proc_write, uart_send_string_consumed]

/-- C5 amended: a write call is never rejected for its size; it always
returns the full requested count, while the transmit path receives only the
first min(count, 511) bytes, further truncated at the first NUL byte (the
string sender walks a NUL-terminated copy). -/
theorem C5_truncation (data : List Nat) (lsr : Nat → Bool) (n : Nat)
    (st : Stats) :
    (uart_proc_write data lsr n st).1 = data.length ∧
    (uart_proc_write data lsr n st).2.1 =
      (data.take (min data.length 511)).takeWhile (fun b => b != 0) := by
  exact ⟨rfl, by simp [uart_proc_write, uart_send_string_consumed]⟩

/-- C6: for a non-LF byte, a transmit timeout increments tx_errors by one and
writes nothing, while success writes the byte and increments tx_bytes by one;
for the LF byte the carriage return and the line feed each independently
follow the same per-attempt rule; and a timeout on one byte does not abort
uart_send_string, which records the error and continues with the remaining
bytes. -/
theorem C6_send_byte_cases (lsr : Nat → Bool) (n c : Nat) (st : Stats)
    (hc : c < 256) :
    (c ≠ 10 → lsr n = false →
      uart_send_char lsr n c st =
        ([], n + 1, { st with tx_errors := st.tx_errors + 1 })) ∧
    (c ≠ 10 → lsr n = true →
      uart_send_char lsr n c st =
        ([c], n + 1, { st with tx_bytes := st.tx_bytes + 1 })) ∧
    (∀ b1 b2 : Bool, lsr n = b1 → lsr (n + 1) = b2 →
      uart_send_char lsr n 10 st =
        ((if b1 then [13] else []) ++ (if b2 then [10] else []), n + 2,
          { st with
              tx_bytes := st.tx_bytes + (if b1 then 1 else 0) +
                (if b2 then 1 else 0),
              tx_errors := st.tx_errors + (if b1 then 0 else 1) +
                (if b2 then 0 else 1) })) ∧
    (∀ rest : List Nat, c ≠ 0 → c ≠ 10 → lsr n = false →
      uart_send_string lsr (c :: rest) n st =
        (c :: (uart_send_string lsr rest (n + 1)
            { st with tx_errors := st.tx_errors + 1 }).1,
          (uart_send_string lsr rest (n + 1)
            { st with tx_errors := st.tx_errors + 1 }).2.1,
          (uart_send_string lsr rest (n + 1)
            { st with tx_errors := st.tx_errors + 1 }).2.2.1,
          (uart_send_string lsr rest (n + 1)
            { st with tx_errors := st.tx_errors + 1 }).2.2.2)) := by
  refine ⟨?_, ?_, ?_, ?_⟩
  · intro h10 hf
    simp [uart_send_char, uart_send_core, h10, hf, Nat.mod_eq_of_lt hc]
  · intro h10 ht
    simp [uart_send_char, uart_send_core, h10, ht, Nat.mod_eq_of_lt hc]
  · intro b1 b2 h1 h2
    cases b1 <;> cases b2 <;>
      simp [uart_send_char, uart_send_core, h1, h2]
  · intro rest h0 h10 hf
    simp [uart_send_string, uart_send_char, uart_send_core, h0, h10, hf]

/-- Witness for C6: byte 65 with a timing-out line status is dropped with
tx_errors incremented; byte 66 with space available is written with tx_bytes
incremented. -/
theorem C6_send_byte_cases_witness :
    uart_send_char (fun _ => false) 0 65 ⟨0, 0, 0, 0, 0⟩ =
      ([], 1, ⟨0, 0, 1, 0, 0⟩) ∧
    uart_send_char (fun _ => true) 0 66 ⟨0, 0, 0, 0, 0⟩ =
      ([66], 1, ⟨1, 0, 0, 0, 0⟩) := by
  have h1 := C6_send_byte_cases (fun _ => false) 0 65 ⟨0, 0, 0, 0, 0⟩
    (by decide)
  have h2 := C6_send_byte_cases (fun _ => true) 0 66 ⟨0, 0, 0, 0, 0⟩
    (by decide)
  exact ⟨h1.1 (by decide) rfl, h2.2.1 (by decide) rfl⟩

/-- C7: every endpoint operation other than reset_stats leaves each of the
five counters no smaller than before; the reset_stats command zeroes all
five, and a stats read of the resulting state reports all-zero counters. -/
theorem C7_counters_monotone_except_reset (s : DevState) (op : Op) :
    (opIsReset op = false → statsLe s.stats (stepOp s op).stats) ∧
    (opIsReset op = true → (stepOp s op).stats = ⟨0, 0, 0, 0, 0⟩ ∧
      uart_stats_read_vals (stepOp s op) = (0, 0, 0, 0, 0)) := by
  cases op with
  | procWrite data lsr =>
    refine ⟨fun _ => ?_, fun h => by simp [opIsReset] at h⟩
    simp only [stepOp, uart_proc_write]
    exact statsLe_send_string lsr _ 0 s.stats
  | procRead cnt dev =>
    refine ⟨fun _ => ?_, fun h => by simp [opIsReset] at h⟩
    simp only [stepOp, uart_proc_read]
    by_cases hdev : dev.isEmpty
    · simp only [if_pos hdev]
      exact statsLe_refl _
    · simp only [if_neg hdev]
      exact statsLe_rxOuterF cnt _ dev [] 0 0 s.stats
  | configWrite kbuf =>
    constructor
    · intro h
      simp only [opIsReset] at h
      simp only [stepOp]
      rw [uart_config_write_stats_of_not_reset kbuf s h]
      exact statsLe_refl _
    · intro h
      simp only [opIsReset] at h
      have hz := uart_config_write_stats_of_reset kbuf s h
      exact ⟨by simpa [stepOp] using hz,
        by simp [stepOp, uart_stats_read_vals, hz]⟩
  | configRead =>
    exact ⟨fun _ => statsLe_refl _, fun h => by simp [opIsReset] at h⟩
  | statusRead =>
    exact ⟨fun _ => statsLe_refl _, fun h => by simp [opIsReset] at h⟩
  | statsRead =>
    exact ⟨fun _ => statsLe_refl _, fun h => by simp [opIsReset] at h⟩

/-- Witness for C7: resetting a state with nonzero counters zeroes them and
the stats endpoint then reports zeros. -/
theorem C7_counters_monotone_except_reset_witness :
    (stepOp ⟨⟨9600, 3, 500000000⟩, ⟨5, 4, 3, 2, 1⟩,
        ⟨1, 0, 4, 3, 0, 3, 6509⟩⟩
      (Op.configWrite resetStatsCmd)).stats = ⟨0, 0, 0, 0, 0⟩ ∧
    uart_stats_read_vals (stepOp ⟨⟨9600, 3, 500000000⟩, ⟨5, 4, 3, 2, 1⟩,
        ⟨1, 0, 4, 3, 0, 3, 6509⟩⟩
      (Op.configWrite resetStatsCmd)) = (0, 0, 0, 0, 0) :=
  (C7_counters_monotone_except_reset
    ⟨⟨9600, 3, 500000000⟩, ⟨5, 4, 3, 2, 1⟩, ⟨1, 0, 4, 3, 0, 3, 6509⟩⟩
    (Op.configWrite resetStatsCmd)).2 (by decide)

/-- C8: a baud=N command whose parsed N is not one of the five enumerated
rates fails with -EINVAL, leaving the stored configuration, the statistics
and the device registers all unchanged (and the apply step is never
reached). -/
theorem C8_unsupported_baud_rejected (kbufIn : List Nat) (N : Nat)
    (s : DevState) (hp : parseBaudCmd (kbufIn.take 127) = some N)
    (hns : N ∉ supportedRates) :
    uart_config_write kbufIn s = (-22, s, false) := by
  have hval : N ≠ 9600 ∧ N ≠ 19200 ∧ N ≠ 38400 ∧ N ≠ 57600 ∧
      N ≠ 115200 := by
    simp only [supportedRates, List.mem_cons, List.not_mem_nil,
      or_false] at hns
    tauto
  unfold uart_config_write
  simp [hp, hval]

/-- Witness for C8: the command "baud=57601" (57601 is not an enumerated
rate) returns -EINVAL with the state untouched. -/
theorem C8_unsupported_baud_rejected_witness :
    uart_config_write [98, 97, 117, 100, 61, 53, 55, 54, 48, 49]
      ⟨⟨9600, 3, 500000000⟩, ⟨0, 0, 0, 0, 0⟩, ⟨1, 0, 4, 3, 0, 3, 6509⟩⟩ =
      (-22, ⟨⟨9600, 3, 500000000⟩, ⟨0, 0, 0, 0, 0⟩,
        ⟨1, 0, 4, 3, 0, 3, 6509⟩⟩, false) :=
  C8_unsupported_baud_rejected [98, 97, 117, 100, 61, 53, 55, 54, 48, 49]
    57601
    ⟨⟨9600, 3, 500000000⟩, ⟨0, 0, 0, 0, 0⟩, ⟨1, 0, 4, 3, 0, 3, 6509⟩⟩
    (by rfl) (by decide)

/-- C10: every 0x00 byte read from the device is counted in rx_bytes but
never placed in the returned buffer — receive returns exactly the consumed
bytes with the NULs filtered out, rx_bytes grows by the full consumed count,
the returned data contains no NUL, and the shortfall of the returned length
against the rx_bytes increase is exactly the number of NULs consumed. -/
theorem C10_nul_bytes_dropped (count : Nat) (dev : List Nat) (st : Stats)
    (h256 : ∀ b ∈ dev, b < 256) :
    ∃ consumed : List Nat,
      dev = consumed ++ (uart_proc_read count dev st).2.1 ∧
      (uart_proc_read count dev st).1 =
        consumed.filter (fun b => b != 0) ∧
      (uart_proc_read count dev st).2.2.2 =
        { st with rx_bytes := st.rx_bytes + consumed.length } ∧
      (uart_proc_read count dev st).1.length + consumed.count 0 =
        consumed.length ∧
      0 ∉ (uart_proc_read count dev st).1 := by
  by_cases hdev : dev.isEmpty
  · have hnil : dev = [] := by
      cases dev
      · rfl
      · simp at hdev
    subst hnil
    exact ⟨[], by simp [uart_proc_read], by simp [uart_proc_read],
      by simp [uart_proc_read], by simp [uart_proc_read],
      by simp [uart_proc_read]⟩
  · have hstep : uart_proc_read count dev st =
        rxOuterF count ((dev.length + 1) * 301) dev [] 0 0 st := by
      rw [uart_proc_read, if_neg hdev]
    obtain ⟨c, h1, h2, h3⟩ := rxOuterF_spec count ((dev.length + 1) * 301)
      dev [] 0 0 st h256
    refine ⟨c, by rw [hstep]; exact h1, by rw [hstep]; simpa using h2,
      by rw [hstep]; exact h3, ?_, ?_⟩
    · rw [hstep]
      simp only [h2, List.nil_append]
      exact filter_length_count c
    · rw [hstep]
      simp only [h2, List.nil_append]
      simp [List.mem_filter]

/-- Witness for C10: the device bytes 65, 0, 66 yield the returned buffer
with the NUL removed while rx_bytes advances by all three. -/
theorem C10_nul_bytes_dropped_witness :
    ∃ consumed : List Nat,
      [65, 0, 66] = consumed ++ (uart_proc_read 10 [65, 0, 66]
        ⟨0, 0, 0, 0, 0⟩).2.1 ∧
      (uart_proc_read 10 [65, 0, 66] ⟨0, 0, 0, 0, 0⟩).1 =
        consumed.filter (fun b => b != 0) ∧
      (uart_proc_read 10 [65, 0, 66] ⟨0, 0, 0, 0, 0⟩).2.2.2 =
        { (⟨0, 0, 0, 0, 0⟩ : Stats) with rx_bytes := 0 + consumed.length } ∧
      (uart_proc_read 10 [65, 0, 66] ⟨0, 0, 0, 0, 0⟩).1.length +
        consumed.count 0 = consumed.length ∧
      0 ∉ (uart_proc_read 10 [65, 0, 66] ⟨0, 0, 0, 0, 0⟩).1 :=
  C10_nul_bytes_dropped 10 [65, 0, 66] ⟨0, 0, 0, 0, 0⟩ (by decide)
